import Mathlib

/-!
# Verification of the Doc-store repository (src/Main.py)

A shallow embedding of the core logic of `src/Main.py`:

* the data model (`Documents`, `Files`, `Tags` tables plus the local
  filesystem tree),
* `parse_search_query` / `search_documents` (the query compiler, including
  the exact construction of the parameter list and the positional binding
  of `?` placeholders performed by `sqlite3`),
* `toggle_archive`,
* `compute_sha256` and `add_document` (ingestion pipeline).

Machine-level effects are made explicit:

* `sqlite3.Cursor.execute` first parses the SQL text (a malformed statement
  raises `OperationalError`) and then binds the positional parameters (a
  mismatch between the number of `?` placeholders and the number of supplied
  parameters raises `ProgrammingError`).  `searchDocuments` returns an
  `Except` value reflecting those two failure modes.
* SHA-256 hashing (`hashlib`), mime sniffing (`magic.from_buffer`) and the
  generated `document_id` / `created_at` values are inputs of the embedding:
  `add_document` is parametrised by a `Hasher` (an incremental hash object
  with `hashlib`'s documented `update` semantics), a sniffing function and
  the two generated strings.
* `created_at` is stored by `sqlite3` as the ISO text of the Python
  `datetime` (`YYYY-MM-DD HH:MM:SS.ffffff`), so `ORDER BY created_at DESC`
  is descending lexicographic string order and `strftime('%Y', created_at)`
  is the first four characters.
-/

set_option maxHeartbeats 1000000

namespace DocStore

/-! ## Data model: the three tables and the storage directory -/

/-- A row of the `Documents` table. -/
structure Document where
  document_id : String
  title : String
  notes : String
  created_at : String
  archived : Bool
deriving DecidableEq

/-- A row of the `Files` table (the autoincrement `file_id` is the position
in the list). -/
structure DBFile where
  document_id : String
  filename : String
  filesize : Nat
  mimetype : String
  sha256 : String
  local_path : String
deriving DecidableEq

/-- A row of the `Tags` table. -/
structure TagRow where
  document_id : String
  tag : String
deriving DecidableEq

/-- The backing store: the three tables plus the local filesystem tree
(an association list from path to byte content; the most recent write
shadows older entries, which models `open(path, "wb")` overwriting). -/
structure DB where
  documents : List Document
  files : List DBFile
  tags : List TagRow
  fs : List (String × List Nat)
deriving DecidableEq

/-- Lookup of the current byte content at a path. -/
def fsLookup (fs : List (String × List Nat)) (p : String) : Option (List Nat) :=
  (fs.find? (fun e => e.1 == p)).map (fun e => e.2)

/-! ## Python string helpers used by `Main.py` -/

/-- Python `s.startswith(p)`. -/
def pyStartsWith (s p : String) : Bool :=
  s.data.take p.data.length == p.data

/-- Python `s[n:]`. -/
def pyDrop (s : String) (n : Nat) : String :=
  ⟨s.data.drop n⟩

/-- The `f"%{t}%"` pattern wrapping used for LIKE parameters. -/
def pct (t : String) : String :=
  "%" ++ t ++ "%"

/-- `strftime('%Y', created_at)` on the stored ISO datetime text:
its first four characters. -/
def yearOf (s : String) : String :=
  ⟨s.data.take 4⟩

/-- Whitespace class of `re.split(r'\s+', ...)` and `str.strip()`. -/
def isWs (c : Char) : Bool :=
  c.isWhitespace

/-- Maximal non-whitespace runs of a character list (the accumulator holds
the current word reversed). -/
def wordsAux : List Char → List Char → List (List Char)
  | [], acc => if acc = [] then [] else [acc.reverse]
  | c :: cs, acc =>
    if isWs c then
      (if acc = [] then wordsAux cs [] else acc.reverse :: wordsAux cs [])
    else wordsAux cs (c :: acc)

/-- `re.split(r'\s+', query.strip())`: the whitespace-separated words of the
query, except that a query that strips to the empty string yields the single
token `""` (as `re.split` does on the empty string). -/
def tokenize (q : String) : List String :=
  let w := wordsAux q.data []
  if w = [] then [""] else w.map (fun l => (⟨l⟩ : String))

/-! ## SQLite `LIKE` -/

/-- SQLite `LIKE` on character lists: `%` matches any (possibly empty) run
(equivalently, the rest of the pattern matches some suffix of the text),
`_` matches exactly one character, and plain characters match
ASCII-case-insensitively (SQLite's default `LIKE` is case-insensitive for
ASCII only, which is exactly what `Char.toLower` folds). -/
def likeM : List Char → List Char → Bool
  | [], t => t.isEmpty
  | '%' :: ps, t => t.tails.any fun s => likeM ps s
  | '_' :: ps, t =>
    match t with
    | [] => false
    | _ :: ts => likeM ps ts
  | p :: ps, t =>
    match t with
    | [] => false
    | c :: ts => (p.toLower == c.toLower) && likeM ps ts

/-- `x LIKE pat` for strings. -/
def likeMatch (pat s : String) : Bool :=
  likeM pat.data s.data

/-! ## The query compiler (`parse_search_query`) -/

/-- An entry of the `conditions` list built by the tokenizer loop: either a
literal condition fragment `(d.title LIKE ? OR d.notes LIKE ?)` (recording
the token that produced it) or a bare `AND` / `OR` keyword appended
verbatim. -/
inductive CondTok where
  | lit (tok : String)
  | op (isAnd : Bool)
deriving DecidableEq

/-- The state accumulated by the token loop of `parse_search_query`:
the four bags, the `conditions` list, and the parameters appended while
tokenizing (two `%token%` entries per literal condition). -/
structure Compiled where
  tags : List String
  years : List String
  mimes : List String
  excludes : List String
  conds : List CondTok
  litParams : List String
deriving DecidableEq

def emptyCompiled : Compiled :=
  ⟨[], [], [], [], [], []⟩

/-- One iteration of the `while i < len(tokens)` loop. -/
def stepTok (acc : Compiled) (tok : String) : Compiled :=
  if pyStartsWith tok "tag:" then
    { acc with tags := acc.tags ++ [pyDrop tok 4] }
  else if pyStartsWith tok "year:" then
    { acc with years := acc.years ++ [pyDrop tok 5] }
  else if pyStartsWith tok "mime:" then
    { acc with mimes := acc.mimes ++ [pyDrop tok 5] }
  else if pyStartsWith tok "-" then
    { acc with excludes := acc.excludes ++ [pyDrop tok 1] }
  else if tok = "AND" ∨ tok = "OR" then
    { acc with conds := acc.conds ++ [CondTok.op (tok = "AND")] }
  else
    { acc with conds := acc.conds ++ [CondTok.lit tok],
               litParams := acc.litParams ++ [pct tok, pct tok] }

/-- `parse_search_query` (the tokenizing loop; the SQL text it then builds
is captured by `paramsOf`, `placeholderCount`, `validConds` and
`evalWhere`). -/
def parse_search_query (q : String) : Compiled :=
  (tokenize q).foldl stepTok emptyCompiled

/-- The final value of `params`: literal-condition parameters are appended
during tokenization, then `tags` (raw), `years` (raw), `mimes` (wrapped in
`%`), then the exclusion parameter list `[f"%{ex}%" for ex in excludes]`
repeated twice (`* 2`). -/
def paramsOf (c : Compiled) : List String :=
  c.litParams ++ c.tags ++ c.years ++ c.mimes.map pct ++
    (c.excludes.map pct ++ c.excludes.map pct)

/-- Number of literal condition fragments in `conditions`. -/
def countLits (l : List CondTok) : Nat :=
  l.countP (fun c => match c with | CondTok.lit _ => true | CondTok.op _ => false)

/-- Number of `?` placeholders in the generated SQL text, in textual order:
one per `tag = ?`, one per `strftime('%Y', d.created_at) = ?`, one per
`mimetype LIKE ?`, exactly two in the single exclusion clause
`(d.title NOT LIKE ? AND d.notes NOT LIKE ?)` whenever `excludes` is
nonempty, and two per literal condition fragment. -/
def placeholderCount (c : Compiled) : Nat :=
  c.tags.length + c.years.length + c.mimes.length +
    (if c.excludes = [] then 0 else 2) + 2 * countLits c.conds

/-- After a literal fragment, the space-joined `conditions` tail must
alternate keyword / fragment for the SQL text to parse. -/
def validTail : List CondTok → Bool
  | [] => true
  | CondTok.op _ :: CondTok.lit _ :: rest => validTail rest
  | _ => false

/-- Whether the space-joined `conditions` list yields well-formed SQL when
appended as `" AND " + " ".join(conditions)`: it must be empty or an
alternation starting and ending with a condition fragment (two adjacent
fragments, a leading/trailing keyword, or two adjacent keywords are SQL
parse errors). -/
def validConds : List CondTok → Bool
  | [] => true
  | CondTok.lit _ :: rest => validTail rest
  | CondTok.op _ :: _ => false

/-- The two `sqlite3` failure modes of `cursor.execute` relevant here:
`OperationalError` for malformed SQL, `ProgrammingError` for a mismatch
between placeholders and supplied parameters. -/
inductive SqlError where
  | malformedSql
  | bindingMismatch
deriving DecidableEq

deriving instance DecidableEq for Except

/-! ## Evaluation of the generated SQL against the store

The WHERE clause is `1=1` followed by ` AND clause` pieces; since SQL `AND`
binds tighter than `OR`, the whole clause is evaluated as an or-of-ands
sequence scanned left to right. -/

/-- `d.document_id IN (SELECT document_id FROM Tags WHERE tag = ? OR ...)`
with the positionally bound values `vals`. -/
def tagAtom (db : DB) (d : Document) (vals : List String) : Bool :=
  db.tags.any fun tr => tr.document_id == d.document_id && vals.any fun v => tr.tag == v

/-- `(strftime('%Y', d.created_at) = ? OR ...)` with bound values `vals`. -/
def yearAtom (d : Document) (vals : List String) : Bool :=
  vals.any fun v => yearOf d.created_at == v

/-- `d.document_id IN (SELECT document_id FROM Files WHERE mimetype LIKE ? OR ...)`. -/
def mimeAtom (db : DB) (d : Document) (vals : List String) : Bool :=
  db.files.any fun fr => fr.document_id == d.document_id && vals.any fun v => likeMatch v fr.mimetype

/-- `(d.title NOT LIKE ? AND d.notes NOT LIKE ?)` with its two bound values. -/
def exclAtom (d : Document) (v1 v2 : String) : Bool :=
  !likeMatch v1 d.title && !likeMatch v2 d.notes

/-- `(d.title LIKE ? OR d.notes LIKE ?)` with its two bound values. -/
def litAtom (d : Document) (v1 v2 : String) : Bool :=
  likeMatch v1 d.title || likeMatch v2 d.notes

/-- Precedence-respecting left-to-right evaluation of the tail of the
`conditions` sequence (alternating keyword / fragment under `validConds`):
`orAcc` is the disjunction of completed AND-groups, `andAcc` the current
AND-group, `lv` evaluates a literal fragment on its two bound parameters,
taken 2 at a time from `ps`. -/
def evalOps (lv : String → String → Bool) :
    List CondTok → List String → Bool → Bool → Bool
  | CondTok.op isAnd :: CondTok.lit _ :: rest, ps, orAcc, andAcc =>
    let v := lv (ps.getD 0 "") (ps.getD 1 "")
    if isAnd then evalOps lv rest (ps.drop 2) orAcc (andAcc && v)
    else evalOps lv rest (ps.drop 2) (orAcc || andAcc) v
  | _, _, orAcc, andAcc => orAcc || andAcc

/-- Evaluation of the generated WHERE clause for document `d`: the
parameters `paramsOf c` are bound positionally to the placeholders in
textual SQL order (tag values, year values, mime values, the two exclusion
slots, then two per literal fragment) — exactly `sqlite3`'s `?` binding.
Note the parameters were *built* in a different order (literal parameters
first), which this positional binding faithfully reproduces. -/
def evalWhere (c : Compiled) (db : DB) (d : Document) : Bool :=
  let ps := paramsOf c
  let tagVals := ps.take c.tags.length
  let ps1 := ps.drop c.tags.length
  let yearVals := ps1.take c.years.length
  let ps2 := ps1.drop c.years.length
  let mimeVals := ps2.take c.mimes.length
  let ps3 := ps2.drop c.mimes.length
  let ps4 := if c.excludes = [] then ps3 else ps3.drop 2
  let base :=
    (if c.tags = [] then true else tagAtom db d tagVals) &&
    (if c.years = [] then true else yearAtom d yearVals) &&
    (if c.mimes = [] then true else mimeAtom db d mimeVals) &&
    (if c.excludes = [] then true else exclAtom d (ps3.getD 0 "") (ps3.getD 1 ""))
  match c.conds with
  | [] => base
  | CondTok.lit _ :: rest =>
    evalOps (litAtom d) rest (ps4.drop 2) false (base && litAtom d (ps4.getD 0 "") (ps4.getD 1 ""))
  | CondTok.op _ :: _ => false

/-- Lexicographic `≤` on character lists: SQLite's BINARY collation is a
bytewise memcmp on the UTF-8 text, and UTF-8 preserves code-point order,
so comparing the code-point lists lexicographically is the same order. -/
def leChars : List Char → List Char → Bool
  | [], _ => true
  | _ :: _, [] => false
  | a :: as, b :: bs => if a = b then leChars as bs else decide (a < b)

theorem leChars_total : ∀ x y : List Char, leChars x y = true ∨ leChars y x = true := by
  intro x
  induction x with
  | nil => intro y; left; rfl
  | cons a as ih =>
    intro y
    cases y with
    | nil => right; rfl
    | cons b bs =>
      by_cases hab : a = b
      · subst hab
        rcases ih bs with h | h
        · left; simpa [leChars] using h
        · right; simpa [leChars] using h
      · rcases lt_trichotomy a b with h | h | h
        · left; simp [leChars, hab, h]
        · exact absurd h hab
        · right; simp [leChars, Ne.symm hab, h]

theorem leChars_trans :
    ∀ x y z : List Char, leChars x y = true → leChars y z = true → leChars x z = true := by
  intro x
  induction x with
  | nil => intro y z _ _; rfl
  | cons a as ih =>
    intro y z hxy hyz
    cases y with
    | nil => simp [leChars] at hxy
    | cons b bs =>
      cases z with
      | nil => simp [leChars] at hyz
      | cons c cs =>
        by_cases hab : a = b <;> by_cases hbc : b = c
        · subst hab; subst hbc
          simp only [leChars, if_pos rfl] at hxy hyz ⊢
          exact ih bs cs hxy hyz
        · subst hab
          simp only [leChars, if_neg hbc, decide_eq_true_eq] at hyz ⊢
          exact hyz
        · subst hbc
          simp only [leChars, if_neg hab, decide_eq_true_eq] at hxy ⊢
          exact hxy
        · simp only [leChars, if_neg hab, decide_eq_true_eq] at hxy
          simp only [leChars, if_neg hbc, decide_eq_true_eq] at hyz
          have hac : a < c := lt_trans hxy hyz
          simp [leChars, ne_of_lt hac, hac]

/-- `ORDER BY d.created_at DESC` on the stored ISO datetime text
(lexicographic on the text, descending). -/
def createdDesc (a b : Document) : Prop :=
  leChars b.created_at.data a.created_at.data = true

instance instDecCreatedDesc : DecidableRel createdDesc :=
  fun a b => inferInstanceAs (Decidable (leChars b.created_at.data a.created_at.data = true))

instance instTotalCreatedDesc : IsTotal Document createdDesc :=
  ⟨fun a b => leChars_total b.created_at.data a.created_at.data⟩

instance instTransCreatedDesc : IsTrans Document createdDesc :=
  ⟨fun _ _ _ h1 h2 => leChars_trans _ _ _ h2 h1⟩

/-- `search_documents`: compile the query, run it.  `cursor.execute` first
parses the SQL (malformed conditions raise `OperationalError`), then binds
the parameters (a placeholder/parameter count mismatch raises
`ProgrammingError`), then the rows grouped by `document_id` are returned
ordered by `created_at` descending.  With `document_id` a primary key, the
grouped rows are exactly the documents satisfying the WHERE clause. -/
def searchDocuments (q : String) (db : DB) : Except SqlError (List Document) :=
  let c := parse_search_query q
  if validConds c.conds = false then Except.error SqlError.malformedSql
  else if (paramsOf c).length ≠ placeholderCount c then Except.error SqlError.bindingMismatch
  else Except.ok (List.insertionSort createdDesc (db.documents.filter (fun d => evalWhere c db d)))

/-! ## `toggle_archive` -/

/-- `UPDATE Documents SET archived = ? WHERE document_id = ?` (a silent
no-op when no row matches). -/
def toggle_archive (db : DB) (document_id : String) (archive : Bool) : DB :=
  { db with documents :=
      db.documents.map fun d =>
        if d.document_id = document_id then { d with archived := archive } else d }

/-! ## Content hashing (`compute_sha256`) and ingestion (`add_document`) -/

/-- An incremental hash object as `hashlib` provides one: an internal state,
`update`, and `hexdigest`.  The two laws are `hashlib`'s documented
semantics: `m.update(a); m.update(b)` is equivalent to `m.update(a + b)`,
and updating with the empty byte string is a no-op.  `add_document` is
parametrised by this structure; SHA-256 itself is one instance of it. -/
structure Hasher where
  S : Type
  init : S
  upd : S → List Nat → S
  hexdigest : S → String
  upd_append : ∀ s a b, upd (upd s a) b = upd s (a ++ b)
  upd_nil : ∀ s, upd s [] = s

/-- The chunks delivered by `iter(lambda: file.read(4096), b"")`. -/
def chunks4096 (l : List Nat) : List (List Nat) :=
  if l = [] then [] else l.take 4096 :: chunks4096 (l.drop 4096)
termination_by l.length
decreasing_by
  rename_i h
  simp only [List.length_drop]
  exact Nat.sub_lt (List.length_pos.mpr h) (by norm_num)

/-- `compute_sha256`: feed the stream to the hash in 4096-byte chunks and
return the hex digest (the model keeps track of the stream position being
rewound by `file.seek(0)` implicitly: every later read sees the full
content again). -/
def compute_sha256 (H : Hasher) (content : List Nat) : String :=
  H.hexdigest ((chunks4096 content).foldl H.upd H.init)

/-- The digest of the entire byte content in one `update` call. -/
def hexDigest (H : Hasher) (content : List Nat) : String :=
  H.hexdigest (H.upd H.init content)

/-- Feeding the stream chunkwise is the same as hashing the whole content:
the streaming laws collapse the fold over `chunks4096`. -/
theorem foldl_chunks4096 (H : Hasher) :
    ∀ n (l : List Nat), l.length ≤ n → ∀ s : H.S, (chunks4096 l).foldl H.upd s = H.upd s l := by
  intro n
  induction n with
  | zero =>
    intro l hl s
    have hnil : l = [] := List.eq_nil_of_length_eq_zero (Nat.le_zero.mp hl)
    subst hnil
    rw [chunks4096.eq_def]
    simp [H.upd_nil]
  | succ n ih =>
    intro l hl s
    rw [chunks4096.eq_def]
    by_cases hnil : l = []
    · simp [hnil, H.upd_nil]
    · simp only [if_neg hnil, List.foldl_cons]
      have hdrop : (l.drop 4096).length ≤ n := by
        have hpos : 0 < l.length := List.length_pos.mpr hnil
        have : l.length - 4096 < l.length := Nat.sub_lt hpos (by norm_num)
        simp only [List.length_drop]
        omega
      rw [ih (l.drop 4096) hdrop, H.upd_append, List.take_append_drop]

theorem compute_sha256_eq (H : Hasher) (content : List Nat) :
    compute_sha256 H content = hexDigest H content := by
  unfold compute_sha256 hexDigest
  rw [foldl_chunks4096 H content.length content (le_refl _)]

/-- An uploaded file: its client-supplied name and its byte stream. -/
structure UpFile where
  name : String
  content : List Nat
deriving DecidableEq

/-- `os.path.join(STORAGE_PATH, comp)`: the component replaces the whole
path when it is absolute (starts with `/`), otherwise it is appended after
a `/` separator. -/
def pyJoin (a b : String) : String :=
  if pyStartsWith b "/" then b else a ++ "/" ++ b

/-- The derived storage path
`os.path.join(STORAGE_PATH, f"{document_id}_{filename}")`. -/
def localPathOf (docId filename : String) : String :=
  pyJoin "document_storage" (docId ++ "_" ++ filename)

/-- The `Files` row built for one uploaded file inside the loop of
`add_document`: size is the full stream length, the mime type is sniffed
from the first 1024 bytes (`magic.from_buffer(file.read(1024))`,
independent of the filename), the digest is `compute_sha256` of the full
stream. -/
def mkFileRow (H : Hasher) (sniff : List Nat → String) (docId : String) (f : UpFile) : DBFile :=
  { document_id := docId
    filename := f.name
    filesize := f.content.length
    mimetype := sniff (f.content.take 1024)
    sha256 := compute_sha256 H f.content
    local_path := localPathOf docId f.name }

/-- One iteration of the file loop of `add_document`: copy the bytes to the
derived local path (`shutil.copyfileobj` after `open(local_path, "wb")`),
then insert the `Files` row. -/
def stepFile (H : Hasher) (sniff : List Nat → String) (docId : String) (db : DB) (f : UpFile) : DB :=
  { db with
      fs := (localPathOf docId f.name, f.content) :: db.fs
      files := db.files ++ [mkFileRow H sniff docId f] }

/-- Python `s.split(",")` (keeps empty pieces). -/
def splitCommaAux : List Char → List Char → List String
  | [], acc => [(⟨acc.reverse⟩ : String)]
  | c :: cs, acc =>
    if c = ',' then (⟨acc.reverse⟩ : String) :: splitCommaAux cs []
    else splitCommaAux cs (c :: acc)

def pySplitComma (s : String) : List String :=
  splitCommaAux s.data []

/-- Python `s.strip()`. -/
def pyStrip (s : String) : String :=
  ⟨((s.data.dropWhile isWs).reverse.dropWhile isWs).reverse⟩

/-- `INSERT OR IGNORE INTO Tags`: a duplicate of the `(document_id, tag)`
primary key is silently dropped. -/
def insertTag (db : DB) (docId t : String) : DB :=
  if db.tags.any (fun tr => tr.document_id == docId && tr.tag == t) then db
  else { db with tags := db.tags ++ [⟨docId, t⟩] }

/-- `add_document(title, notes, tags, files)`.  The generated
`document_id` (`md5(f"{title}{datetime.now()}")`) and `created_at`
(`datetime.now()`) are inputs of the embedding, as are the hash and the
mime sniffer.  Note there is no validation whatsoever: the `Documents` row
is inserted first, unconditionally; then each file is hashed, copied and
recorded; then the comma-split, stripped, nonempty tags are inserted with
`INSERT OR IGNORE`. -/
def add_document (H : Hasher) (sniff : List Nat → String) (docId createdAt : String)
    (title notes tagsStr : String) (files : List UpFile) (db : DB) : String × DB :=
  let tagList := if tagsStr ≠ "" then (pySplitComma tagsStr).map pyStrip else []
  let db1 : DB := { db with documents := db.documents ++ [⟨docId, title, notes, createdAt, false⟩] }
  let db2 := files.foldl (stepFile H sniff docId) db1
  let db3 := tagList.foldl (fun acc t => if t ≠ "" then insertTag acc docId t else acc) db2
  (docId, db3)

/-! ## General lemmas about the embedding -/

/-- The pattern `%` alone matches every text. -/
theorem likeM_pct (t : List Char) : likeM ['%'] t = true := by
  have h0 : ([] : List Char) ∈ t.tails := (List.mem_tails _ _).mpr List.nil_suffix
  have hu : likeM ['%'] t = t.tails.any fun s => likeM [] s := rfl
  rw [hu]
  simp only [List.any_eq_true]
  exact ⟨[], h0, rfl⟩

/-- The pattern `%%` (the bound parameter for an empty literal token)
matches every text. -/
theorem likeM_pct_pct (t : List Char) : likeM ['%', '%'] t = true := by
  have ht : t ∈ t.tails := (List.mem_tails _ _).mpr (List.suffix_refl t)
  have hu : likeM ['%', '%'] t = t.tails.any fun s => likeM ['%'] s := rfl
  rw [hu]
  simp only [List.any_eq_true]
  exact ⟨t, ht, likeM_pct t⟩

theorem likeMatch_empty_pct (s : String) : likeMatch (pct "") s = true := by
  have h : (pct "").data = ['%', '%'] := rfl
  simp only [likeMatch, h]
  exact likeM_pct_pct s.data

/-- `tokenize` never returns the empty token list. -/
theorem tokenize_ne_nil (q : String) : tokenize q ≠ [] := by
  unfold tokenize
  by_cases h : wordsAux q.data [] = []
  · simp [h]
  · simp only [if_neg h]
    intro hmap
    exact h (List.map_eq_nil_iff.mp hmap)

/-! ## Example fixtures used by witnesses and counterexamples -/

def exDoc : Document :=
  ⟨"d1", "hello", "", "2023-01-01 10:00:00.000000", false⟩

def exDB : DB :=
  ⟨[exDoc], [], [], []⟩

def docWork : Document :=
  ⟨"w1", "report", "weekly", "2023-01-03 10:00:00.000000", false⟩

def docPersonal : Document :=
  ⟨"p1", "diary", "private", "2023-01-02 10:00:00.000000", false⟩

def docNone : Document :=
  ⟨"n1", "misc", "loose", "2023-01-01 10:00:00.000000", false⟩

def tagDB : DB :=
  ⟨[docNone, docWork, docPersonal], [], [⟨"w1", "work"⟩, ⟨"p1", "personal"⟩], []⟩

/-! ## C1 — exclusion tokens

The spec demands that every `-<value>` exclusion be enforced (AND-combined)
on the returned documents.  The code's exclusion clause
`(d.title NOT LIKE ? AND d.notes NOT LIKE ?)` contains exactly two `?`
placeholders regardless of how many exclusion tokens were parsed, while
`params` receives `[f"%{ex}%" for ex in excludes] * 2` entries — so with
two or more exclusion tokens `sqlite3` raises `ProgrammingError`
(parameter-count mismatch) instead of filtering.  The spec is the clear
intent and the `* 2` a slip, so the claim is recorded as a code bug; this
theorem evaluates the code at the failing input. -/

/-- A document whose title contains the substring `"bar"`. -/
def docBar : Document :=
  ⟨"b1", "barbar", "w", "2023-02-01 10:00:00.000000", false⟩

def barDB : DB :=
  ⟨[docBar], [], [], []⟩

/-- C1 fails on the code in two ways, both witnessed here.  First: at
`"-a -b"` (two exclusion tokens), for every database state,
`search_documents` raises the parameter-binding error (2 placeholders, 4
parameters), so the claimed AND-enforcement of several exclusions never
happens.  Second, non-vacuously: for `"foo -bar"` (a literal term plus one
exclusion token), the literal's parameters were appended to `params` first
while its SQL fragment comes last, so the positional binding is scrambled
— the store whose only document is titled `"barbar"` gets that document
*returned* even though its title contains the excluded value `"bar"` as a
substring. -/
theorem exclusion_filter_broken :
    (∀ db : DB, searchDocuments "-a -b" db = Except.error SqlError.bindingMismatch) ∧
    searchDocuments "foo -bar" barDB = Except.ok [docBar] ∧
    "bar".data <:+: docBar.title.data :=
  ⟨fun _ => rfl, by decide, by decide⟩

/-! ## C10 — toggle_archive on an unknown id -/

/-- C10: `toggle_archive` on a `document_id` not present in `Documents` is
a silent no-op: the bare `UPDATE ... WHERE document_id = ?` matches no row,
raises nothing, and every row of every table (and the filesystem tree) is
unchanged. -/
theorem toggle_archive_unknown_id_noop (db : DB) (docId : String) (fl : Bool)
    (h : ∀ d ∈ db.documents, d.document_id ≠ docId) :
    toggle_archive db docId fl = db := by
  have hmap :
      db.documents.map
        (fun d => if d.document_id = docId then { d with archived := fl } else d) =
        db.documents.map id := by
    exact List.map_congr_left fun a ha => if_neg (h a ha)
  unfold toggle_archive
  rw [hmap, List.map_id]

theorem toggle_archive_unknown_id_noop_witness :
    (∀ d ∈ exDB.documents, d.document_id ≠ "missing") ∧
      toggle_archive exDB "missing" true = exDB :=
  ⟨by decide, toggle_archive_unknown_id_noop exDB "missing" true (by decide)⟩

/-! ## C6 — toggling archive twice restores the flag, nothing else moves -/

/-- C6: starting from `archived = b`, `toggle_archive` with `!b` followed by
`toggle_archive` with `b` restores the store exactly; moreover a single
`toggle_archive` never touches `Files`, `Tags`, the filesystem, or any
`Documents` column other than `archived`. -/
theorem toggle_archive_involution (db : DB) (docId : String) (b : Bool)
    (h : ∀ d ∈ db.documents, d.document_id = docId → d.archived = b) :
    toggle_archive (toggle_archive db docId (!b)) docId b = db ∧
    ∀ fl : Bool,
      (toggle_archive db docId fl).files = db.files ∧
      (toggle_archive db docId fl).tags = db.tags ∧
      (toggle_archive db docId fl).fs = db.fs ∧
      (toggle_archive db docId fl).documents.map
          (fun d => (d.document_id, d.title, d.notes, d.created_at)) =
        db.documents.map (fun d => (d.document_id, d.title, d.notes, d.created_at)) := by
  constructor
  · unfold toggle_archive
    simp only [List.map_map]
    have hmap :
        db.documents.map
          ((fun d => if d.document_id = docId then { d with archived := b } else d) ∘
            (fun d => if d.document_id = docId then { d with archived := !b } else d)) =
          db.documents.map id := by
      apply List.map_congr_left
      intro a ha
      rcases a with ⟨i, t, n, ca, ar⟩
      by_cases hid : i = docId
      · have har : ar = b := h ⟨i, t, n, ca, ar⟩ ha hid
        simp [Function.comp, hid, har]
      · simp [Function.comp, hid]
    rw [hmap, List.map_id]
  · intro fl
    refine ⟨rfl, rfl, rfl, ?_⟩
    unfold toggle_archive
    simp only [List.map_map]
    apply List.map_congr_left
    intro a _
    by_cases hid : a.document_id = docId <;> simp [Function.comp, hid]

theorem toggle_archive_involution_witness :
    (∀ d ∈ exDB.documents, d.document_id = "d1" → d.archived = false) ∧
      (toggle_archive (toggle_archive exDB "d1" (!false)) "d1" false = exDB ∧
        ∀ fl : Bool,
          (toggle_archive exDB "d1" fl).files = exDB.files ∧
          (toggle_archive exDB "d1" fl).tags = exDB.tags ∧
          (toggle_archive exDB "d1" fl).fs = exDB.fs ∧
          (toggle_archive exDB "d1" fl).documents.map
              (fun d => (d.document_id, d.title, d.notes, d.created_at)) =
            exDB.documents.map (fun d => (d.document_id, d.title, d.notes, d.created_at))) :=
  ⟨by decide, toggle_archive_involution exDB "d1" false (by decide)⟩

/-! ## C4 — the empty query returns everything, newest first -/

/-- C4: `search_documents ""` succeeds and returns all stored documents
(the single empty literal token compiles to
`(d.title LIKE '%%' OR d.notes LIKE '%%')`, which every row satisfies),
ordered by `created_at` descending. -/
theorem search_empty_query_returns_all_sorted (db : DB) :
    ∃ rs, searchDocuments "" db = Except.ok rs ∧
      List.Perm rs db.documents ∧ List.Sorted createdDesc rs := by
  have hw : ∀ d : Document, evalWhere (parse_search_query "") db d = true := by
    intro d
    have hc : parse_search_query "" = ⟨[], [], [], [], [CondTok.lit ""], [pct "", pct ""]⟩ := rfl
    rw [hc]
    simp [evalWhere, evalOps, paramsOf, litAtom, likeMatch_empty_pct]
  refine ⟨List.insertionSort createdDesc
      (db.documents.filter fun d => evalWhere (parse_search_query "") db d),
    rfl, ?_, List.sorted_insertionSort createdDesc _⟩
  have hf : (db.documents.filter fun d => evalWhere (parse_search_query "") db d) =
      db.documents :=
    List.filter_eq_self.mpr fun a _ => hw a
  rw [hf]
  exact List.perm_insertionSort createdDesc db.documents

/-! ## C3 — several `tag:` tokens are OR-combined -/

/-- Parsing a token list consisting only of `tag:`-prefixed tokens
accumulates exactly their values (in order) into the `tags` bag. -/
theorem foldl_stepTok_tags :
    ∀ ts : List String, (∀ t ∈ ts, pyStartsWith t "tag:" = true) →
      ∀ acc : Compiled, ts.foldl stepTok acc =
        { acc with tags := acc.tags ++ ts.map (fun t => pyDrop t 4) } := by
  intro ts
  induction ts with
  | nil => intro _ acc; simp
  | cons u us ih =>
    intro h acc
    have hu : pyStartsWith u "tag:" = true := h u (List.mem_cons_self u us)
    have hus : ∀ t ∈ us, pyStartsWith t "tag:" = true :=
      fun t ht => h t (List.mem_cons_of_mem u ht)
    simp only [List.foldl_cons]
    rw [show stepTok acc u = { acc with tags := acc.tags ++ [pyDrop u 4] } from by
      simp [stepTok, hu]]
    rw [ih hus]
    simp

/-- C3: for a query whose tokens are all `tag:<value>` tokens,
`search_documents` succeeds and returns exactly the documents carrying at
least one of the listed tag values (the union, not the intersection). -/
theorem search_tag_tokens_union (q : String) (db : DB)
    (h : ∀ t ∈ tokenize q, pyStartsWith t "tag:" = true) :
    ∃ rs, searchDocuments q db = Except.ok rs ∧
      ∀ d, d ∈ rs ↔ d ∈ db.documents ∧
        ∃ tr ∈ db.tags, tr.document_id = d.document_id ∧
          ∃ tok ∈ tokenize q, tr.tag = pyDrop tok 4 := by
  have hts : tokenize q ≠ [] := tokenize_ne_nil q
  have hc : parse_search_query q =
      ⟨(tokenize q).map (fun t => pyDrop t 4), [], [], [], [], []⟩ := by
    unfold parse_search_query
    rw [foldl_stepTok_tags (tokenize q) h emptyCompiled]
    rfl
  have hmapne : (tokenize q).map (fun t => pyDrop t 4) ≠ [] := by
    intro hmap
    exact hts (List.map_eq_nil_iff.mp hmap)
  have hvalid : validConds (parse_search_query q).conds = true := by
    rw [hc]
    rfl
  have hparams : paramsOf (parse_search_query q) = (tokenize q).map (fun t => pyDrop t 4) := by
    rw [hc]
    simp [paramsOf]
  have hcount : placeholderCount (parse_search_query q) =
      ((tokenize q).map (fun t => pyDrop t 4)).length := by
    rw [hc]
    simp [placeholderCount, countLits]
  have heval : ∀ d, evalWhere (parse_search_query q) db d =
      tagAtom db d ((tokenize q).map (fun t => pyDrop t 4)) := by
    intro d
    rw [hc]
    simp [evalWhere, paramsOf, hmapne, -List.length_map]
  refine ⟨List.insertionSort createdDesc
      (db.documents.filter fun d => evalWhere (parse_search_query q) db d), ?_, ?_⟩
  · unfold searchDocuments
    simp [hvalid, hparams, hcount]
  · intro d
    have hperm := List.perm_insertionSort createdDesc
      (db.documents.filter fun d => evalWhere (parse_search_query q) db d)
    rw [hperm.mem_iff, List.mem_filter, heval d]
    simp [tagAtom, List.any_eq_true, List.mem_map]

theorem search_tag_tokens_union_witness :
    (∀ t ∈ tokenize "tag:work tag:personal", pyStartsWith t "tag:" = true) ∧
      (∃ rs, searchDocuments "tag:work tag:personal" tagDB = Except.ok rs ∧
        ∀ d, d ∈ rs ↔ d ∈ tagDB.documents ∧
          ∃ tr ∈ tagDB.tags, tr.document_id = d.document_id ∧
            ∃ tok ∈ tokenize "tag:work tag:personal", tr.tag = pyDrop tok 4) :=
  ⟨by decide, search_tag_tokens_union "tag:work tag:personal" tagDB (by decide)⟩

/-! ## C9 — search never filters on `archived` -/

/-- Reassign the `archived` flag of a document (arbitrarily, as a function
of the document). -/
def setArch (f : Document → Bool) (d : Document) : Document :=
  { d with archived := f d }

/-- The WHERE evaluation never reads the `archived` column: reassigning
every document's flag (both in the store and in the candidate row) leaves
it unchanged.  This is definitional because `evalWhere` only projects
`title`, `notes`, `created_at`, `document_id`, `tags` and `files`. -/
theorem evalWhere_setArch (c : Compiled) (db : DB) (f : Document → Bool) (d : Document) :
    evalWhere c { db with documents := db.documents.map (setArch f) } (setArch f d) =
      evalWhere c db d := rfl

theorem filter_map_comm {α : Type} (g : α → α) (p : α → Bool) (l : List α) :
    (l.map g).filter p = (l.filter fun a => p (g a)).map g := by
  induction l with
  | nil => rfl
  | cons a as ih =>
    simp only [List.map_cons, List.filter_cons]
    cases h : p (g a) <;> simp [h, ih]

theorem orderedInsert_map {α : Type} (r : α → α → Prop) [DecidableRel r] (g : α → α)
    (hg : ∀ a b, r (g a) (g b) ↔ r a b) (a : α) (l : List α) :
    List.orderedInsert r (g a) (l.map g) = (List.orderedInsert r a l).map g := by
  induction l with
  | nil => rfl
  | cons b bs ih =>
    simp only [List.map_cons, List.orderedInsert]
    by_cases h : r a b
    · rw [if_pos ((hg a b).mpr h), if_pos h, List.map_cons, List.map_cons]
    · rw [if_neg (fun hh => h ((hg a b).mp hh)), if_neg h, List.map_cons, ih]

theorem insertionSort_map {α : Type} (r : α → α → Prop) [DecidableRel r] (g : α → α)
    (hg : ∀ a b, r (g a) (g b) ↔ r a b) (l : List α) :
    List.insertionSort r (l.map g) = (List.insertionSort r l).map g := by
  induction l with
  | nil => rfl
  | cons a as ih =>
    simp only [List.map_cons, List.insertionSort]
    rw [ih, orderedInsert_map r g hg]

/-- C9: `search_documents` applies no filter on the `archived` flag.
Reassigning the flags of all stored documents arbitrarily (in particular
archiving or unarchiving any subset) produces, for every query, exactly the
same outcome — the same error, or the same documents in the same order,
with only their `archived` fields reassigned.  Archived-state filtering is
left entirely to the presentation layer. -/
theorem search_ignores_archived (q : String) (f : Document → Bool) (db : DB) :
    searchDocuments q { db with documents := db.documents.map (setArch f) } =
      (searchDocuments q db).map (List.map (setArch f)) := by
  unfold searchDocuments
  by_cases h1 : validConds (parse_search_query q).conds = false
  · simp [h1, Except.map]
  · by_cases h2 :
      (paramsOf (parse_search_query q)).length ≠ placeholderCount (parse_search_query q)
    · simp [h1, h2, Except.map]
    · simp only [if_neg h1, if_neg h2, Except.map]
      have hpred : (fun d => evalWhere (parse_search_query q)
          { db with documents := db.documents.map (setArch f) } (setArch f d)) =
          (fun d => evalWhere (parse_search_query q) db d) := rfl
      rw [filter_map_comm (setArch f), hpred,
        insertionSort_map createdDesc (setArch f) (fun a b => Iff.rfl)]

/-! ## C7 — storage paths of different documents never collide -/

/-- Splitting at the separating underscore: two `id ++ "_" ++ name`
character lists with equally long `id` parts agree only if both parts
agree. -/
theorem append_underscore_inj (a b x y : List Char) (hlen : a.length = b.length)
    (h : a ++ '_' :: x = b ++ '_' :: y) : a = b ∧ x = y := by
  have hinj := List.append_inj h hlen
  refine ⟨hinj.1, ?_⟩
  have := hinj.2
  injection this

/-- The first character of `id ++ "_" ++ f` determines whether
`os.path.join` treats it as absolute; if it is `/` the id part starts
with `/`. -/
theorem startsSlash_head (idd fd : List Char)
    (hs : (List.take 1 (idd ++ '_' :: fd) == ['/']) = true) :
    ∃ r, idd = '/' :: r := by
  rcases idd with _ | ⟨c, r⟩
  · simp at hs
  · simp at hs
    exact ⟨r, by rw [hs]⟩

/-- Storage paths derived from distinct, equally long document ids are
distinct, whatever the filenames (`os.path.join` either keeps the
`document_storage/` root for both, replaces it for both, or the two paths
differ in their first character). -/
theorem localPathOf_inj (id1 id2 f1 f2 : String)
    (hne : id1 ≠ id2) (hlen : id1.length = id2.length) :
    localPathOf id1 f1 ≠ localPathOf id2 f2 := by
  intro hpath
  have hd1 : (id1 ++ "_" ++ f1).data = id1.data ++ '_' :: f1.data := by
    simp [List.append_assoc]
  have hd2 : (id2 ++ "_" ++ f2).data = id2.data ++ '_' :: f2.data := by
    simp [List.append_assoc]
  have hlen' : id1.data.length = id2.data.length := hlen
  have hids : id1.data ≠ id2.data := fun hh => hne (String.ext hh)
  have hsw1 : pyStartsWith (id1 ++ "_" ++ f1) "/" =
      (List.take 1 (id1.data ++ '_' :: f1.data) == ['/']) := by
    unfold pyStartsWith
    rw [hd1]
    rfl
  have hsw2 : pyStartsWith (id2 ++ "_" ++ f2) "/" =
      (List.take 1 (id2.data ++ '_' :: f2.data) == ['/']) := by
    unfold pyStartsWith
    rw [hd2]
    rfl
  unfold localPathOf pyJoin at hpath
  by_cases hs1 : pyStartsWith (id1 ++ "_" ++ f1) "/" = true <;>
    by_cases hs2 : pyStartsWith (id2 ++ "_" ++ f2) "/" = true
  · rw [if_pos hs1, if_pos hs2] at hpath
    have hdata := congrArg String.data hpath
    rw [hd1, hd2] at hdata
    exact hids (append_underscore_inj _ _ _ _ hlen' hdata).1
  · rw [if_pos hs1, if_neg hs2] at hpath
    have hdata := congrArg String.data hpath
    rw [hd1] at hdata
    rw [hsw1] at hs1
    obtain ⟨r1, hr1⟩ := startsSlash_head id1.data f1.data hs1
    have hheads := congrArg List.head? hdata
    rw [hr1] at hheads
    have hleft : (('/' :: r1) ++ '_' :: f1.data).head? = some '/' := rfl
    have hright : (("document_storage" ++ "/" ++ (id2 ++ "_" ++ f2)).data).head? = some 'd' := rfl
    rw [hleft, hright] at hheads
    simp at hheads
  · rw [if_neg hs1, if_pos hs2] at hpath
    have hdata := congrArg String.data hpath
    rw [hd2] at hdata
    rw [hsw2] at hs2
    obtain ⟨r2, hr2⟩ := startsSlash_head id2.data f2.data hs2
    have hheads := congrArg List.head? hdata
    rw [hr2] at hheads
    have hleft : (("document_storage" ++ "/" ++ (id1 ++ "_" ++ f1)).data).head? = some 'd' := rfl
    have hright : (('/' :: r2) ++ '_' :: f2.data).head? = some '/' := rfl
    rw [hleft, hright] at hheads
    simp at hheads
  · rw [if_neg hs1, if_neg hs2] at hpath
    have hdata := congrArg String.data hpath
    have hsplit1 : ("document_storage" ++ "/" ++ (id1 ++ "_" ++ f1)).data =
        ("document_storage" ++ "/").data ++ (id1.data ++ '_' :: f1.data) := by
      rw [← hd1]
      simp only [String.data_append]
    have hsplit2 : ("document_storage" ++ "/" ++ (id2 ++ "_" ++ f2)).data =
        ("document_storage" ++ "/").data ++ (id2.data ++ '_' :: f2.data) := by
      rw [← hd2]
      simp only [String.data_append]
    rw [hsplit1, hsplit2] at hdata
    have hdata2 := List.append_cancel_left hdata
    exact hids (append_underscore_inj _ _ _ _ hlen' hdata2).1

/-- C7: the storage path is the deterministic function
`document_storage/{document_id}_{filename}` of `(document_id, filename)`,
and for the ids `add_document` generates — 32-character md5 hex digests —
paths of two distinct documents never collide, even for identical
filenames. -/
theorem local_paths_distinct (id1 id2 f1 f2 : String)
    (hne : id1 ≠ id2) (h1 : id1.length = 32) (h2 : id2.length = 32) :
    localPathOf id1 f1 ≠ localPathOf id2 f2 :=
  localPathOf_inj id1 id2 f1 f2 hne (h1.trans h2.symm)

theorem local_paths_distinct_witness :
    ("aaaaaaaaaaaaaaaaaaaaaaaaaaaaaaaa" : String) ≠ "bbbbbbbbbbbbbbbbbbbbbbbbbbbbbbbb" ∧
      ("aaaaaaaaaaaaaaaaaaaaaaaaaaaaaaaa" : String).length = 32 ∧
      ("bbbbbbbbbbbbbbbbbbbbbbbbbbbbbbbb" : String).length = 32 ∧
      localPathOf "aaaaaaaaaaaaaaaaaaaaaaaaaaaaaaaa" "scan.pdf" ≠
        localPathOf "bbbbbbbbbbbbbbbbbbbbbbbbbbbbbbbb" "scan.pdf" :=
  ⟨by decide, by decide, by decide,
    local_paths_distinct _ _ "scan.pdf" "scan.pdf" (by decide) (by decide) (by decide)⟩

/-! ## C8 — stored sha256 matches the bytes written to local_path -/

/-- The file loop of `add_document` appends exactly one `Files` row per
uploaded file, built by `mkFileRow`. -/
theorem files_foldl_stepFile (H : Hasher) (sniff : List Nat → String) (docId : String) :
    ∀ (fs : List UpFile) (d0 : DB),
      (fs.foldl (stepFile H sniff docId) d0).files =
        d0.files ++ fs.map (mkFileRow H sniff docId) := by
  intro fs
  induction fs with
  | nil => intro d0; simp
  | cons f fs ih =>
    intro d0
    simp only [List.foldl_cons, List.map_cons]
    rw [ih]
    simp [stepFile]

/-- The tag loop of `add_document` never touches the `Files` table. -/
theorem files_foldl_insertTag (docId : String) :
    ∀ (ts : List String) (d0 : DB),
      (ts.foldl (fun acc t => if t ≠ "" then insertTag acc docId t else acc) d0).files =
        d0.files := by
  intro ts
  induction ts with
  | nil => intro d0; rfl
  | cons u us ih =>
    intro d0
    simp only [List.foldl_cons]
    rw [ih]
    by_cases hu : u ≠ ""
    · simp only [if_pos hu, insertTag]
      split
      · rfl
      · rfl
    · simp only [if_neg hu]

/-- C8: every `Files` row created by `add_document` is `mkFileRow` of its
uploaded file (first conjunct), and at the moment the loop body writes a
file, the row's stored `sha256` is the hex digest of the entire byte
content just written at the row's `local_path`: re-hashing the bytes found
at `local_path` right after the write reproduces the stored digest
(`compute_sha256` feeds the stream in 4096-byte chunks, which by the
incremental-update laws equals hashing the whole content at once). -/
theorem file_row_sha256_roundtrip (H : Hasher) (sniff : List Nat → String)
    (docId createdAt title notes tagsStr : String) (files : List UpFile) (db : DB) :
    ((add_document H sniff docId createdAt title notes tagsStr files db).2.files =
      db.files ++ files.map (mkFileRow H sniff docId)) ∧
    ∀ (db' : DB) (f : UpFile),
      (stepFile H sniff docId db' f).files = db'.files ++ [mkFileRow H sniff docId f] ∧
      fsLookup (stepFile H sniff docId db' f).fs (mkFileRow H sniff docId f).local_path =
        some f.content ∧
      (mkFileRow H sniff docId f).sha256 = hexDigest H f.content := by
  constructor
  · unfold add_document
    rw [files_foldl_insertTag, files_foldl_stepFile]
  · intro db' f
    refine ⟨rfl, ?_, compute_sha256_eq H f.content⟩
    simp [stepFile, fsLookup, mkFileRow, List.find?]

/-! ## C2 — add_document performs no validation

The spec claims a `ValidationError` on empty title / empty file list,
surfaced before any persistence.  The source contains no validation at
all: `add_document` unconditionally inserts the `Documents` row first (the
UI form gate `if submit and title and files` is the only guard, outside
`add_document`).  The counterexample below persists a `Documents` row for
an empty title and for an empty file list; the amended claim — no error is
raised and the row is persisted anyway — is proved in general. -/

/-- A concrete `Hasher` instance (state = bytes seen so far), witnessing
that the `Hasher` laws are satisfiable. -/
def listHasher : Hasher where
  S := List Nat
  init := []
  upd := fun s a => s ++ a
  hexdigest := fun s => (⟨s.map fun _ => 'x'⟩ : String)
  upd_append := fun s a b => List.append_assoc s a b
  upd_nil := fun s => List.append_nil s

def noSniff : List Nat → String :=
  fun _ => "application/octet-stream"

/-- C2 counterexample: with an empty title (first conjunct) or an empty
files list (second conjunct), `add_document` does not fail — it returns
normally and a `Documents` row *is* persisted, contradicting
"fails with ValidationError before any row is persisted". -/
theorem add_document_empty_input_persists_cex :
    (add_document listHasher noSniff "id0" "2024-01-01 00:00:00.000000"
        "" "note" "" [] ⟨[], [], [], []⟩).2.documents =
      [⟨"id0", "", "note", "2024-01-01 00:00:00.000000", false⟩] ∧
    (add_document listHasher noSniff "id0" "2024-01-01 00:00:00.000000"
        "t" "n" "" [] ⟨[], [], [], []⟩).2.documents =
      [⟨"id0", "t", "n", "2024-01-01 00:00:00.000000", false⟩] :=
  ⟨rfl, rfl⟩

/-- The file loop of `add_document` never touches the `Documents` table. -/
theorem documents_foldl_stepFile (H : Hasher) (sniff : List Nat → String) (docId : String) :
    ∀ (fs : List UpFile) (d0 : DB),
      (fs.foldl (stepFile H sniff docId) d0).documents = d0.documents := by
  intro fs
  induction fs with
  | nil => intro d0; rfl
  | cons f fs ih =>
    intro d0
    simp only [List.foldl_cons]
    rw [ih]
    rfl

/-- The tag loop of `add_document` never touches the `Documents` table. -/
theorem documents_foldl_insertTag (docId : String) :
    ∀ (ts : List String) (d0 : DB),
      (ts.foldl (fun acc t => if t ≠ "" then insertTag acc docId t else acc) d0).documents =
        d0.documents := by
  intro ts
  induction ts with
  | nil => intro d0; rfl
  | cons u us ih =>
    intro d0
    simp only [List.foldl_cons]
    rw [ih]
    by_cases hu : u ≠ ""
    · simp only [if_pos hu, insertTag]
      split
      · rfl
      · rfl
    · simp only [if_neg hu]

/-- C2 amended: for every input with an empty title or an empty files list
(indeed for every input), `add_document` raises no error and persists the
`Documents` row unconditionally — validation happens only at the UI form
gate, not in `add_document`. -/
theorem add_document_no_validation (H : Hasher) (sniff : List Nat → String)
    (docId createdAt title notes tagsStr : String) (files : List UpFile) (db : DB)
    (_h : title = "" ∨ files = []) :
    (add_document H sniff docId createdAt title notes tagsStr files db).2.documents =
      db.documents ++ [⟨docId, title, notes, createdAt, false⟩] := by
  unfold add_document
  rw [documents_foldl_insertTag, documents_foldl_stepFile]

theorem add_document_no_validation_witness :
    (("" : String) = "" ∨ ([] : List UpFile) = []) ∧
      (add_document listHasher noSniff "id0" "2024-01-01 00:00:00.000000"
          "" "note" "" [] ⟨[], [], [], []⟩).2.documents =
        ([] : List Document) ++
          [⟨"id0", "", "note", "2024-01-01 00:00:00.000000", false⟩] :=
  ⟨Or.inl rfl,
    add_document_no_validation listHasher noSniff "id0" "2024-01-01 00:00:00.000000"
      "" "note" "" [] ⟨[], [], [], []⟩ (Or.inl rfl)⟩

/-! ## C5 — idempotence of repeated tokens

The spec claims repeating any identical token leaves the result unchanged.
That fails for literal tokens (two adjacent fragments yield malformed SQL)
and for exclusion tokens (a second `-x` triggers the parameter-count
mismatch of C1), and also whenever literal terms are present (their
parameters scramble the positional binding).  What does hold: in a query
made only of recognised prefix tokens, repeating a `tag:` / `year:` /
`mime:` token is idempotent, because the bags are OR-combined. -/

/-- A recognised non-exclusion prefix token. -/
def prefTok (t : String) : Bool :=
  pyStartsWith t "tag:" || pyStartsWith t "year:" || pyStartsWith t "mime:"

/-- Any recognised prefix token (including exclusions): tokens that add no
`conditions` fragment and no literal parameter. -/
def filtTok (t : String) : Bool :=
  prefTok t || pyStartsWith t "-"

def tagsOf (ts : List String) : List String :=
  (ts.filter fun t => pyStartsWith t "tag:").map fun t => pyDrop t 4

def yearsOf (ts : List String) : List String :=
  (ts.filter fun t => pyStartsWith t "year:").map fun t => pyDrop t 5

def mimesOf (ts : List String) : List String :=
  (ts.filter fun t => pyStartsWith t "mime:").map fun t => pyDrop t 5

def exclOf (ts : List String) : List String :=
  (ts.filter fun t => pyStartsWith t "-").map fun t => pyDrop t 1

/-- A string starting with prefix `p` starts with `p`'s first character. -/
theorem pyStartsWith_head (t p : String) (c : Char)
    (hp : p.data.head? = some c) (h : pyStartsWith t p = true) :
    t.data.head? = some c := by
  unfold pyStartsWith at h
  have htake : t.data.take p.data.length = p.data := eq_of_beq h
  rcases hpd : p.data with _ | ⟨c0, pr⟩
  · rw [hpd] at hp
    cases hp
  · rw [hpd] at hp htake
    simp only [List.head?_cons, Option.some.injEq] at hp
    rcases htd : t.data with _ | ⟨a, tr⟩
    · rw [htd] at htake
      simp at htake
    · rw [htd] at htake
      simp only [List.length_cons, List.take_succ_cons, List.cons.injEq] at htake
      simp only [List.head?_cons, Option.some.injEq]
      exact htake.1.trans hp

/-- Prefixes with different first characters are mutually exclusive. -/
theorem pyStartsWith_false_of_heads (t p1 p2 : String) (c1 c2 : Char)
    (hp1 : p1.data.head? = some c1) (hp2 : p2.data.head? = some c2) (hne : c1 ≠ c2)
    (h : pyStartsWith t p1 = true) : pyStartsWith t p2 = false := by
  cases hb : pyStartsWith t p2
  · rfl
  · have h1 := pyStartsWith_head t p1 c1 hp1 h
    have h2 := pyStartsWith_head t p2 c2 hp2 hb
    rw [h1] at h2
    injection h2 with h3
    exact absurd h3 hne

theorem stepTok_tag (acc : Compiled) (u : String) (h : pyStartsWith u "tag:" = true) :
    stepTok acc u = { acc with tags := acc.tags ++ [pyDrop u 4] } := by
  simp [stepTok, h]

theorem stepTok_year (acc : Compiled) (u : String)
    (h1 : pyStartsWith u "tag:" = false) (h : pyStartsWith u "year:" = true) :
    stepTok acc u = { acc with years := acc.years ++ [pyDrop u 5] } := by
  simp [stepTok, h1, h]

theorem stepTok_mime (acc : Compiled) (u : String)
    (h1 : pyStartsWith u "tag:" = false) (h2 : pyStartsWith u "year:" = false)
    (h : pyStartsWith u "mime:" = true) :
    stepTok acc u = { acc with mimes := acc.mimes ++ [pyDrop u 5] } := by
  simp [stepTok, h1, h2, h]

theorem stepTok_excl (acc : Compiled) (u : String)
    (h1 : pyStartsWith u "tag:" = false) (h2 : pyStartsWith u "year:" = false)
    (h3 : pyStartsWith u "mime:" = false) (h : pyStartsWith u "-" = true) :
    stepTok acc u = { acc with excludes := acc.excludes ++ [pyDrop u 1] } := by
  simp [stepTok, h1, h2, h3, h]

/-- Parsing a token list of recognised prefix tokens only fills the four
bags with the respective values, leaves `conditions` and the literal
parameters untouched. -/
theorem foldl_stepTok_filt :
    ∀ ts : List String, (∀ t ∈ ts, filtTok t = true) →
      ∀ acc : Compiled, ts.foldl stepTok acc =
        { acc with tags := acc.tags ++ tagsOf ts,
                   years := acc.years ++ yearsOf ts,
                   mimes := acc.mimes ++ mimesOf ts,
                   excludes := acc.excludes ++ exclOf ts } := by
  intro ts
  induction ts with
  | nil =>
    intro _ acc
    simp only [List.foldl_nil, tagsOf, yearsOf, mimesOf, exclOf, List.filter_nil,
      List.map_nil, List.append_nil]
  | cons u us ih =>
    intro h acc
    have hu : filtTok u = true := h u (List.mem_cons_self u us)
    have hus : ∀ t ∈ us, filtTok t = true := fun t ht => h t (List.mem_cons_of_mem u ht)
    simp only [List.foldl_cons]
    simp only [filtTok, prefTok, Bool.or_eq_true] at hu
    rcases hu with ((htag | hyear) | hmime) | hmin
    · have hy : pyStartsWith u "year:" = false :=
        pyStartsWith_false_of_heads u "tag:" "year:" 't' 'y' rfl rfl (by decide) htag
      have hm : pyStartsWith u "mime:" = false :=
        pyStartsWith_false_of_heads u "tag:" "mime:" 't' 'm' rfl rfl (by decide) htag
      have hx : pyStartsWith u "-" = false :=
        pyStartsWith_false_of_heads u "tag:" "-" 't' '-' rfl rfl (by decide) htag
      rw [stepTok_tag acc u htag, ih hus]
      simp [tagsOf, yearsOf, mimesOf, exclOf, List.filter_cons, htag, hy, hm, hx,
        List.append_assoc]
    · have ht : pyStartsWith u "tag:" = false :=
        pyStartsWith_false_of_heads u "year:" "tag:" 'y' 't' rfl rfl (by decide) hyear
      have hm : pyStartsWith u "mime:" = false :=
        pyStartsWith_false_of_heads u "year:" "mime:" 'y' 'm' rfl rfl (by decide) hyear
      have hx : pyStartsWith u "-" = false :=
        pyStartsWith_false_of_heads u "year:" "-" 'y' '-' rfl rfl (by decide) hyear
      rw [stepTok_year acc u ht hyear, ih hus]
      simp [tagsOf, yearsOf, mimesOf, exclOf, List.filter_cons, ht, hyear, hm, hx,
        List.append_assoc]
    · have ht : pyStartsWith u "tag:" = false :=
        pyStartsWith_false_of_heads u "mime:" "tag:" 'm' 't' rfl rfl (by decide) hmime
      have hy : pyStartsWith u "year:" = false :=
        pyStartsWith_false_of_heads u "mime:" "year:" 'm' 'y' rfl rfl (by decide) hmime
      have hx : pyStartsWith u "-" = false :=
        pyStartsWith_false_of_heads u "mime:" "-" 'm' '-' rfl rfl (by decide) hmime
      rw [stepTok_mime acc u ht hy hmime, ih hus]
      simp [tagsOf, yearsOf, mimesOf, exclOf, List.filter_cons, ht, hy, hmime, hx,
        List.append_assoc]
    · have ht : pyStartsWith u "tag:" = false :=
        pyStartsWith_false_of_heads u "-" "tag:" '-' 't' rfl rfl (by decide) hmin
      have hy : pyStartsWith u "year:" = false :=
        pyStartsWith_false_of_heads u "-" "year:" '-' 'y' rfl rfl (by decide) hmin
      have hm : pyStartsWith u "mime:" = false :=
        pyStartsWith_false_of_heads u "-" "mime:" '-' 'm' rfl rfl (by decide) hmin
      rw [stepTok_excl acc u ht hy hm hmin, ih hus]
      simp [tagsOf, yearsOf, mimesOf, exclOf, List.filter_cons, ht, hy, hm, hmin,
        List.append_assoc]

/-- Evaluation of a compiled query with empty `conditions` and no literal
parameters: the positional binding is aligned, each nonempty bag becomes
its OR-atom, the exclusion clause sees the first two of the doubled
exclusion parameters. -/
theorem evalWhere_bags (T Y M E : List String) (db : DB) (d : Document) :
    evalWhere ⟨T, Y, M, E, [], []⟩ db d =
      ((if T = [] then true else tagAtom db d T) &&
       (if Y = [] then true else yearAtom d Y) &&
       (if M = [] then true else mimeAtom db d (M.map pct)) &&
       (if E = [] then true else exclAtom d ((E.map pct ++ E.map pct).getD 0 "")
          ((E.map pct ++ E.map pct).getD 1 ""))) := by
  have h1 : paramsOf ⟨T, Y, M, E, [], []⟩ =
      T ++ (Y ++ (M.map pct ++ (E.map pct ++ E.map pct))) := by
    simp [paramsOf, List.append_assoc]
  simp only [evalWhere, h1]
  rw [List.take_left, List.drop_left, List.take_left, List.drop_left,
    List.take_left' (by simp), List.drop_left' (by simp)]

/-- When the compiled query parses cleanly and the parameter count matches,
`search_documents` returns the filtered, sorted rows. -/
theorem searchDocuments_eval (q : String) (db : DB) (c : Compiled)
    (hc : parse_search_query q = c)
    (hval : validConds c.conds = true)
    (hcnt : (paramsOf c).length = placeholderCount c) :
    searchDocuments q db = Except.ok (List.insertionSort createdDesc
      (db.documents.filter fun d => evalWhere c db d)) := by
  unfold searchDocuments
  rw [hc]
  simp [hval, hcnt]

/-- When the compiled query parses cleanly but the parameter count differs
from the placeholder count, `search_documents` raises `ProgrammingError`. -/
theorem searchDocuments_mismatch (q : String) (db : DB) (c : Compiled)
    (hc : parse_search_query q = c)
    (hval : validConds c.conds = true)
    (hcnt : (paramsOf c).length ≠ placeholderCount c) :
    searchDocuments q db = Except.error SqlError.bindingMismatch := by
  unfold searchDocuments
  rw [hc]
  simp [hval, hcnt]

/-- Two queries compiling to empty `conditions` with the same exclusion bag
and OR-equivalent tag/year/mime bags produce identical search outcomes. -/
theorem search_eq_of_bags (q q' : String) (db : DB)
    (T Y M E T' Y' M' : List String)
    (hc : parse_search_query q = ⟨T, Y, M, E, [], []⟩)
    (hc' : parse_search_query q' = ⟨T', Y', M', E, [], []⟩)
    (hT0 : T = [] ↔ T' = []) (hY0 : Y = [] ↔ Y' = []) (hM0 : M = [] ↔ M' = [])
    (hTa : ∀ p : String → Bool, T.any p = T'.any p)
    (hYa : ∀ p : String → Bool, Y.any p = Y'.any p)
    (hMa : ∀ p : String → Bool, M.any p = M'.any p) :
    searchDocuments q db = searchDocuments q' db := by
  have hcnt2 : ((paramsOf ⟨T', Y', M', E, [], []⟩).length =
      placeholderCount ⟨T', Y', M', E, [], []⟩) ↔
      ((paramsOf ⟨T, Y, M, E, [], []⟩).length = placeholderCount ⟨T, Y, M, E, [], []⟩) := by
    simp only [paramsOf, placeholderCount, countLits, List.length_append, List.length_map,
      List.countP_nil, List.length_nil]
    by_cases hE : E = [] <;> simp [hE]
  by_cases hcnt : (paramsOf ⟨T, Y, M, E, [], []⟩).length = placeholderCount ⟨T, Y, M, E, [], []⟩
  · rw [searchDocuments_eval q db _ hc rfl hcnt,
      searchDocuments_eval q' db _ hc' rfl (hcnt2.mpr hcnt)]
    have hpred : (fun d => evalWhere ⟨T, Y, M, E, [], []⟩ db d) =
        (fun d => evalWhere ⟨T', Y', M', E, [], []⟩ db d) := by
      funext d
      rw [evalWhere_bags, evalWhere_bags]
      have e1 : (if T = [] then true else tagAtom db d T) =
          (if T' = [] then true else tagAtom db d T') := by
        by_cases hT : T = []
        · rw [if_pos hT, if_pos (hT0.mp hT)]
        · rw [if_neg hT, if_neg (fun hh => hT (hT0.mpr hh))]
          unfold tagAtom
          congr 1
          funext tr
          rw [hTa]
      have e2 : (if Y = [] then true else yearAtom d Y) =
          (if Y' = [] then true else yearAtom d Y') := by
        by_cases hY : Y = []
        · rw [if_pos hY, if_pos (hY0.mp hY)]
        · rw [if_neg hY, if_neg (fun hh => hY (hY0.mpr hh))]
          unfold yearAtom
          rw [hYa]
      have e3 : (if M = [] then true else mimeAtom db d (M.map pct)) =
          (if M' = [] then true else mimeAtom db d (M'.map pct)) := by
        by_cases hM : M = []
        · rw [if_pos hM, if_pos (hM0.mp hM)]
        · rw [if_neg hM, if_neg (fun hh => hM (hM0.mpr hh))]
          unfold mimeAtom
          congr 1
          funext fr
          rw [List.any_map, List.any_map, hMa]
      rw [e1, e2, e3]
    rw [hpred]
  · rw [searchDocuments_mismatch q db _ hc rfl hcnt,
      searchDocuments_mismatch q' db _ hc' rfl (fun hh => hcnt (hcnt2.mp hh))]

/-- OR over a bag with an adjacent duplicate equals OR over the bag with
the duplicate removed. -/
theorem any_dup {α : Type} (A B : List α) (v : α) (p : α → Bool) :
    (A ++ v :: v :: B).any p = (A ++ v :: B).any p := by
  cases hpv : p v <;> simp [List.any_append, List.any_cons, hpv]

/-- C5 (amended): in a query consisting solely of recognised prefix tokens
(`tag:` / `year:` / `mime:` / `-`), repeating an identical `tag:`, `year:`
or `mime:` token yields exactly the same search outcome as writing it once
(OR of duplicates equals the single term).  For exclusion and literal
tokens the original claim fails — see the counterexample. -/
theorem dup_prefix_token_idempotent (q q' : String) (db : DB)
    (ts1 ts2 : List String) (t : String)
    (hq : tokenize q = ts1 ++ t :: t :: ts2)
    (hq' : tokenize q' = ts1 ++ t :: ts2)
    (hall : ∀ u ∈ ts1 ++ t :: ts2, filtTok u = true)
    (ht : prefTok t = true) :
    searchDocuments q db = searchDocuments q' db := by
  have htf : filtTok t = true := by simp [filtTok, ht]
  have hts1 : ∀ u ∈ ts1, filtTok u = true := fun u hu => hall u (List.mem_append_left _ hu)
  have hts2 : ∀ u ∈ ts2, filtTok u = true :=
    fun u hu => hall u (List.mem_append_right _ (List.mem_cons_of_mem t hu))
  have hall2 : ∀ u ∈ ts1 ++ t :: t :: ts2, filtTok u = true := by
    intro u hu
    rcases List.mem_append.mp hu with h1 | h2
    · exact hts1 u h1
    · rcases List.mem_cons.mp h2 with he | h3
      · rw [he]; exact htf
      · rcases List.mem_cons.mp h3 with he | h4
        · rw [he]; exact htf
        · exact hts2 u h4
  have hc : parse_search_query q =
      ⟨tagsOf (ts1 ++ t :: t :: ts2), yearsOf (ts1 ++ t :: t :: ts2),
        mimesOf (ts1 ++ t :: t :: ts2), exclOf (ts1 ++ t :: t :: ts2), [], []⟩ := by
    unfold parse_search_query
    rw [hq, foldl_stepTok_filt _ hall2 emptyCompiled]
    rfl
  have hc' : parse_search_query q' =
      ⟨tagsOf (ts1 ++ t :: ts2), yearsOf (ts1 ++ t :: ts2),
        mimesOf (ts1 ++ t :: ts2), exclOf (ts1 ++ t :: ts2), [], []⟩ := by
    unfold parse_search_query
    rw [hq', foldl_stepTok_filt _ hall emptyCompiled]
    rfl
  simp only [prefTok, Bool.or_eq_true] at ht
  rcases ht with (htag | hyear) | hmime
  · have hy : pyStartsWith t "year:" = false :=
      pyStartsWith_false_of_heads t "tag:" "year:" 't' 'y' rfl rfl (by decide) htag
    have hm : pyStartsWith t "mime:" = false :=
      pyStartsWith_false_of_heads t "tag:" "mime:" 't' 'm' rfl rfl (by decide) htag
    have hx : pyStartsWith t "-" = false :=
      pyStartsWith_false_of_heads t "tag:" "-" 't' '-' rfl rfl (by decide) htag
    have hT2 : tagsOf (ts1 ++ t :: t :: ts2) =
        tagsOf ts1 ++ pyDrop t 4 :: pyDrop t 4 :: tagsOf ts2 := by
      simp [tagsOf, List.filter_append, List.filter_cons, htag]
    have hT1 : tagsOf (ts1 ++ t :: ts2) = tagsOf ts1 ++ pyDrop t 4 :: tagsOf ts2 := by
      simp [tagsOf, List.filter_append, List.filter_cons, htag]
    have hY2 : yearsOf (ts1 ++ t :: t :: ts2) = yearsOf (ts1 ++ t :: ts2) := by
      simp [yearsOf, List.filter_append, List.filter_cons, hy]
    have hM2 : mimesOf (ts1 ++ t :: t :: ts2) = mimesOf (ts1 ++ t :: ts2) := by
      simp [mimesOf, List.filter_append, List.filter_cons, hm]
    have hE2 : exclOf (ts1 ++ t :: t :: ts2) = exclOf (ts1 ++ t :: ts2) := by
      simp [exclOf, List.filter_append, List.filter_cons, hx]
    rw [hT2, hY2, hM2, hE2] at hc
    rw [hT1] at hc'
    exact search_eq_of_bags q q' db _ _ _ _ _ _ _ hc hc' (by simp) Iff.rfl Iff.rfl
      (any_dup _ _ _) (fun p => rfl) (fun p => rfl)
  · have hta : pyStartsWith t "tag:" = false :=
      pyStartsWith_false_of_heads t "year:" "tag:" 'y' 't' rfl rfl (by decide) hyear
    have hm : pyStartsWith t "mime:" = false :=
      pyStartsWith_false_of_heads t "year:" "mime:" 'y' 'm' rfl rfl (by decide) hyear
    have hx : pyStartsWith t "-" = false :=
      pyStartsWith_false_of_heads t "year:" "-" 'y' '-' rfl rfl (by decide) hyear
    have hY2 : yearsOf (ts1 ++ t :: t :: ts2) =
        yearsOf ts1 ++ pyDrop t 5 :: pyDrop t 5 :: yearsOf ts2 := by
      simp [yearsOf, List.filter_append, List.filter_cons, hyear]
    have hY1 : yearsOf (ts1 ++ t :: ts2) = yearsOf ts1 ++ pyDrop t 5 :: yearsOf ts2 := by
      simp [yearsOf, List.filter_append, List.filter_cons, hyear]
    have hT2 : tagsOf (ts1 ++ t :: t :: ts2) = tagsOf (ts1 ++ t :: ts2) := by
      simp [tagsOf, List.filter_append, List.filter_cons, hta]
    have hM2 : mimesOf (ts1 ++ t :: t :: ts2) = mimesOf (ts1 ++ t :: ts2) := by
      simp [mimesOf, List.filter_append, List.filter_cons, hm]
    have hE2 : exclOf (ts1 ++ t :: t :: ts2) = exclOf (ts1 ++ t :: ts2) := by
      simp [exclOf, List.filter_append, List.filter_cons, hx]
    rw [hT2, hY2, hM2, hE2] at hc
    rw [hY1] at hc'
    exact search_eq_of_bags q q' db _ _ _ _ _ _ _ hc hc' Iff.rfl (by simp) Iff.rfl
      (fun p => rfl) (any_dup _ _ _) (fun p => rfl)
  · have hta : pyStartsWith t "tag:" = false :=
      pyStartsWith_false_of_heads t "mime:" "tag:" 'm' 't' rfl rfl (by decide) hmime
    have hy : pyStartsWith t "year:" = false :=
      pyStartsWith_false_of_heads t "mime:" "year:" 'm' 'y' rfl rfl (by decide) hmime
    have hx : pyStartsWith t "-" = false :=
      pyStartsWith_false_of_heads t "mime:" "-" 'm' '-' rfl rfl (by decide) hmime
    have hM2 : mimesOf (ts1 ++ t :: t :: ts2) =
        mimesOf ts1 ++ pyDrop t 5 :: pyDrop t 5 :: mimesOf ts2 := by
      simp [mimesOf, List.filter_append, List.filter_cons, hmime]
    have hM1 : mimesOf (ts1 ++ t :: ts2) = mimesOf ts1 ++ pyDrop t 5 :: mimesOf ts2 := by
      simp [mimesOf, List.filter_append, List.filter_cons, hmime]
    have hT2 : tagsOf (ts1 ++ t :: t :: ts2) = tagsOf (ts1 ++ t :: ts2) := by
      simp [tagsOf, List.filter_append, List.filter_cons, hta]
    have hY2 : yearsOf (ts1 ++ t :: t :: ts2) = yearsOf (ts1 ++ t :: ts2) := by
      simp [yearsOf, List.filter_append, List.filter_cons, hy]
    have hE2 : exclOf (ts1 ++ t :: t :: ts2) = exclOf (ts1 ++ t :: ts2) := by
      simp [exclOf, List.filter_append, List.filter_cons, hx]
    rw [hT2, hY2, hM2, hE2] at hc
    rw [hM1] at hc'
    exact search_eq_of_bags q q' db _ _ _ _ _ _ _ hc hc' Iff.rfl Iff.rfl (by simp)
      (fun p => rfl) (fun p => rfl) (any_dup _ _ _)

theorem dup_prefix_token_idempotent_witness :
    (tokenize "tag:a tag:a" = [] ++ "tag:a" :: "tag:a" :: []) ∧
      (tokenize "tag:a" = [] ++ "tag:a" :: []) ∧
      (∀ u ∈ ([] : List String) ++ "tag:a" :: [], filtTok u = true) ∧
      prefTok "tag:a" = true ∧
      searchDocuments "tag:a tag:a" tagDB = searchDocuments "tag:a" tagDB :=
  ⟨by decide, by decide, by decide, by decide,
    dup_prefix_token_idempotent "tag:a tag:a" "tag:a" tagDB [] [] "tag:a"
      (by decide) (by decide) (by decide) (by decide)⟩

/-- C5 counterexample: repeating the exclusion token `-a` is *not*
idempotent.  `search_documents "-a"` returns the stored document (whose
title `"hello"` does not contain `"a"`), while `search_documents "-a -a"`
raises the parameter-count error, so the results differ. -/
theorem dup_exclusion_token_cex :
    searchDocuments "-a" exDB = Except.ok [exDoc] ∧
    searchDocuments "-a -a" exDB = Except.error SqlError.bindingMismatch ∧
    searchDocuments "-a -a" exDB ≠ searchDocuments "-a" exDB := by
  refine ⟨by decide, by decide, by decide⟩

end DocStore
